import Mathlib

/-!
Verification of the pydap SQL handler (pydap.handlers.sql) against its
natural-language specification.  The Python source in
src/pydap/handlers/sql/__init__.py is shallowly embedded below: string
processing is modelled over lists of characters, errors raised by the
Python code are modelled with an Except monad, and the mutable selection
lists of sequence objects are modelled with an explicit store.
-/

namespace PydapSql

/-- Errors raised by the handler code.  valueError stands for the ValueError
and SyntaxError exceptions raised by re.split unpacking and ast.literal_eval;
constraintExpressionError is pydap.exceptions.ConstraintExpressionError;
typeError is the built-in TypeError. -/
inductive PyErr where
  | valueError
  | constraintExpressionError
  | typeError
deriving DecidableEq, Repr

/-- Decidable equality of Except values, used to settle the compiler
theorems on concrete inputs by evaluation. -/
instance {ε α : Type} [DecidableEq ε] [DecidableEq α] : DecidableEq (Except ε α) := fun a b =>
  match a, b with
  | Except.error x, Except.error y =>
    match decEq x y with
    | isTrue h => isTrue (by rw [h])
    | isFalse h => isFalse (fun hh => h (Except.error.inj hh))
  | Except.ok x, Except.ok y =>
    match decEq x y with
    | isTrue h => isTrue (by rw [h])
    | isFalse h => isFalse (fun hh => h (Except.ok.inj hh))
  | Except.error _, Except.ok _ => isFalse (fun hh => Except.noConfusion hh)
  | Except.ok _, Except.error _ => isFalse (fun hh => Except.noConfusion hh)

/-- A parenthesised clause is never the empty string, so the WHERE
keyword is emitted whenever at least one clause was compiled. -/
theorem clause_ne_empty (a op b : String) :
    ("(" ++ a ++ " " ++ op ++ " " ++ b ++ ")") ≠ "" := by
  simp [String.ext_iff]

/-- The single-quote character, written by code point to keep source text
plain. -/
def squote : Char := Char.ofNat 39

/-- A one-character string holding a single quote. -/
def sq : String := String.singleton squote

/-- Splitting of a selection expression on the first comparison operator,
modelling re.split with the alternation of <=, >=, !=, =~ before >, <, =
and maxsplit 1: the scan moves left to right and at each position the
two-character operators are tried before the one-character ones.  The
accumulator holds the characters before the operator in reverse. -/
def splitOpAux (acc : List Char) : List Char → Option (String × String × String)
  | c1 :: c2 :: rest =>
    if (c1 = '<' ∧ c2 = '=') ∨ (c1 = '>' ∧ c2 = '=') ∨ (c1 = '!' ∧ c2 = '=') ∨
        (c1 = '=' ∧ c2 = '~') then
      some (String.mk acc.reverse, String.mk [c1, c2], String.mk rest)
    else if c1 = '<' ∨ c1 = '>' ∨ c1 = '=' then
      some (String.mk acc.reverse, String.mk [c1], String.mk (c2 :: rest))
    else
      splitOpAux (c1 :: acc) (c2 :: rest)
  | [c1] =>
    if c1 = '<' ∨ c1 = '>' ∨ c1 = '=' then
      some (String.mk acc.reverse, String.mk [c1], "")
    else
      none
  | [] => none

/-- Splitting an expression into identifier, operator and right-hand side,
as in the line id1, op, id2 = re.split(..., expression, 1) of
parse_queries.  Returns none when no operator occurs, in which case the
Python unpacking raises ValueError. -/
def reSplitOp (s : String) : Option (String × String × String) :=
  splitOpAux [] s.toList

/-- Splitting a character list on the dot character, as Python str.split
with an explicit separator: an empty input gives one empty field, and a
trailing separator gives a trailing empty field. -/
def splitDotAux (acc : List Char) : List Char → List (List Char)
  | [] => [acc.reverse]
  | c :: rest =>
    if c = '.' then acc.reverse :: splitDotAux [] rest
    else splitDotAux (c :: acc) rest

/-- The text after the last dot of a string, modelling the source idiom
id.split(&dot;)[-1] used for both sides of a selection expression. -/
def lastDotStr (s : String) : String :=
  String.mk ((splitDotAux [] s.toList).getLastD [])

/-- Python literal values that the restricted literal parser below can
produce: integers, strings and booleans.  (ast.literal_eval also accepts
container, float and complex literals; floats never reach it intact here
because the caller first truncates its argument to the text after the
last dot, and the other forms play no role in the claims.) -/
inductive PyLit where
  | intL (n : Int)
  | strL (s : String)
  | boolL (b : Bool)
deriving DecidableEq, Repr

/-- Rendering of a literal the way str.format renders it into the clause
text: integers in decimal, strings without any quotes, booleans as the
Python constants. -/
def pyStr : PyLit → String
  | PyLit.intL n => toString n
  | PyLit.strL s => s
  | PyLit.boolL b => if b then "True" else "False"

/-- Leading and trailing whitespace removal over characters. -/
def trimChars (cs : List Char) : List Char :=
  ((cs.dropWhile (fun c => c.isWhitespace)).reverse.dropWhile
    (fun c => c.isWhitespace)).reverse

/-- Decimal value of a digit list. -/
def digitsToNat (cs : List Char) : Nat :=
  cs.foldl (fun acc c => acc * 10 + (c.toNat - 48)) 0

/-- Integer literal parsing: an optional minus sign followed by at least
one decimal digit. -/
def parseIntChars (cs : List Char) : Option Int :=
  match cs with
  | '-' :: ds =>
    if ds ≠ [] ∧ ds.all (fun c => c.isDigit) then some (-(digitsToNat ds : Int))
    else none
  | ds =>
    if ds ≠ [] ∧ ds.all (fun c => c.isDigit) then some ((digitsToNat ds : Int))
    else none

/-- The restricted literal parser, modelling ast.literal_eval on the
scalar literals relevant here: the boolean constants, decimal integers,
and quoted strings (single or double quotes, no embedded quote of the
same kind).  Everything else, in particular identifiers and compound
expressions, yields none, modelling the ValueError or SyntaxError that
ast.literal_eval raises on non-literal input. -/
def pyLiteralEval (s : String) : Option PyLit :=
  let t := trimChars s.toList
  if t = "True".toList then some (PyLit.boolL true)
  else if t = "False".toList then some (PyLit.boolL false)
  else
    match parseIntChars t with
    | some n => some (PyLit.intL n)
    | none =>
      match t.head?, t.getLast? with
      | some c1, some c2 =>
        if 2 ≤ t.length ∧ (c1 = squote ∨ c1 = '"') ∧ c2 = c1 ∧
            ¬ (t.drop 1).dropLast.contains c1 then
          some (PyLit.strL (String.mk (t.drop 1).dropLast))
        else none
      | _, _ => none

/-- Association lookup for the variable mapping, modelling the Python
dict membership test and subscript used in parse_queries. -/
def lookupCol (mapping : List (String × String)) (name : String) : Option String :=
  match mapping with
  | [] => none
  | (k, v) :: rest => if name = k then some v else lookupCol rest name

/-- Compilation of one selection expression into one clause, the loop body
of parse_queries: split on the first operator, resolve the left-hand name
through the mapping or raise ConstraintExpressionError, then resolve the
right-hand side through the mapping or parse it as a literal, and render
the clause by direct string formatting. -/
def compileExpr (mapping : List (String × String)) (expression : String) :
    Except PyErr String :=
  match reSplitOp expression with
  | none => Except.error PyErr.valueError
  | some (id1, op, id2) =>
    match lookupCol mapping (lastDotStr id1) with
    | none => Except.error PyErr.constraintExpressionError
    | some a =>
      match lookupCol mapping (lastDotStr id2) with
      | some b => Except.ok ("(" ++ a ++ " " ++ op ++ " " ++ b ++ ")")
      | none =>
        match pyLiteralEval (lastDotStr id2) with
        | some v => Except.ok ("(" ++ a ++ " " ++ op ++ " " ++ pyStr v ++ ")")
        | none => Except.error PyErr.valueError

/-- Compilation of the whole selection list, stopping at the first failing
expression as the Python for loop does when an exception is raised. -/
def compileClauses (mapping : List (String × String)) :
    List String → Except PyErr (List String)
  | [] => Except.ok []
  | e :: rest =>
    match compileExpr mapping e with
    | Except.error err => Except.error err
    | Except.ok c =>
      match compileClauses mapping rest with
      | Except.error err => Except.error err
      | Except.ok cs => Except.ok (c :: cs)

/-- Joining with a separator, as str.join. -/
def joinWith (sep : String) : List String → String
  | [] => ""
  | [x] => x
  | x :: xs => x ++ sep ++ joinWith sep xs

/-- The constraint compiler parse_queries: each selection expression
becomes one parenthesised clause, the clauses are joined with AND, and a
nonempty condition is prefixed with the WHERE keyword.  The result is a
single SQL text fragment; the function passes no bound parameters. -/
def parse_queries (selection : List String) (mapping : List (String × String)) :
    Except PyErr String :=
  match compileClauses mapping selection with
  | Except.error err => Except.error err
  | Except.ok clauses =>
    let condition := joinWith " AND " clauses
    Except.ok (if condition = "" then "" else "WHERE " ++ condition)

/-- Prefix test over characters. -/
def startsWithChars : List Char → List Char → Bool
  | [], _ => true
  | _ :: _, [] => false
  | a :: as, b :: bs => a = b && startsWithChars as bs

/-- Substring test over characters: the needle occurs contiguously in the
haystack. -/
def containsRun (needle : List Char) : List Char → Bool
  | [] => needle.isEmpty
  | c :: rest => startsWithChars needle (c :: rest) || containsRun needle rest

/-- The first selection expression of the repository test
test_multiple_selections_for_one_variable. -/
def timeLoBound : String :=
  "station_observations.time>=" ++ sq ++ "1970-01-01 00:00:00" ++ sq

/-- The second selection expression of that test. -/
def timeHiBound : String :=
  "station_observations.time<=" ++ sq ++ "2000-12-31 00:00:00" ++ sq

/-- The variable mapping of that test. -/
def timeMapping : List (String × String) := [("time", "obs_time")]

/-- Claim C1.  The claim states that a literal right-hand side is never
embedded in the SQL text and is instead passed as a bound parameter.
The code contradicts its own test suite here: parse_queries returns one
plain WHERE string in which the literal value appears verbatim, and it
produces no parameters at all.  This theorem evaluates the compiler at
the first selection of tests/test_parse_queries.py and shows the literal
date embedded in the emitted SQL text. -/
theorem literal_embedded_in_sql_text :
    parse_queries [timeLoBound] timeMapping
      = Except.ok "WHERE (obs_time >= 1970-01-01 00:00:00)" ∧
    containsRun "1970-01-01 00:00:00".toList
      "WHERE (obs_time >= 1970-01-01 00:00:00)".toList = true := by
  decide

/-- Claim C2.  The claim (and tests/test_parse_queries.py) require two
clauses with two distinct placeholders and two parameter values for the
two time bounds.  The code instead returns one WHERE string with both
literal values interpolated and no placeholder in sight: this theorem
evaluates the compiler at the exact selection list of the test and shows
the emitted text contains neither the placeholder of the first clause
nor that of the second. -/
theorem no_distinct_placeholders_for_two_bounds :
    parse_queries [timeLoBound, timeHiBound] timeMapping
      = Except.ok
        "WHERE (obs_time >= 1970-01-01 00:00:00) AND (obs_time <= 2000-12-31 00:00:00)" ∧
    containsRun "(obs_time >= :0)".toList
      "WHERE (obs_time >= 1970-01-01 00:00:00) AND (obs_time <= 2000-12-31 00:00:00)".toList
      = false ∧
    containsRun "(obs_time <= :1)".toList
      "WHERE (obs_time >= 1970-01-01 00:00:00) AND (obs_time <= 2000-12-31 00:00:00)".toList
      = false := by
  decide

/-- Claim C3, counterexample.  The claim states the right-hand literal
value is recovered exactly, including floats.  For the expression
index>10.5 the code first truncates the right-hand side to the text
after the last dot, so ast.literal_eval sees only the digit 5 and the
emitted clause compares against 5, not 10.5. -/
theorem float_literal_truncated :
    parse_queries ["index>10.5"] [("index", "idx")] = Except.ok "WHERE (idx > 5)" ∧
    "WHERE (idx > 5)" ≠ "WHERE (idx > 10.5)" := by
  decide

/-- Claim C3 as amended: the right-hand side is first truncated to the
text after its last dot and only then parsed by the restricted literal
parser, so a dot-free literal is recovered exactly (and rendered into the
clause), while a right-hand side the restricted parser rejects makes
compilation fail with an error instead of being evaluated. -/
theorem rhs_literal_after_dot_split (mapping : List (String × String))
    (e id1 op id2 col : String)
    (hsplit : reSplitOp e = some (id1, op, id2))
    (hlhs : lookupCol mapping (lastDotStr id1) = some col)
    (hrhs : lookupCol mapping (lastDotStr id2) = none) :
    (∀ v, pyLiteralEval (lastDotStr id2) = some v →
      parse_queries [e] mapping
        = Except.ok ("WHERE (" ++ col ++ " " ++ op ++ " " ++ pyStr v ++ ")")) ∧
    (pyLiteralEval (lastDotStr id2) = none →
      parse_queries [e] mapping = Except.error PyErr.valueError) := by
  constructor
  · intro v hv
    simp only [parse_queries, compileClauses, compileExpr, hsplit, hlhs, hrhs, hv,
      joinWith]
    rw [if_neg (clause_ne_empty col op (pyStr v))]
    congr 1
  · intro hv
    simp only [parse_queries, compileClauses, compileExpr, hsplit, hlhs, hrhs, hv]

/-- Witness for rhs_literal_after_dot_split at the concrete expression
a>5 with mapping a to col_a. -/
theorem rhs_literal_after_dot_split_witness :
    (∀ v, pyLiteralEval (lastDotStr "5") = some v →
      parse_queries ["a>5"] [("a", "col_a")]
        = Except.ok ("WHERE (" ++ "col_a" ++ " " ++ ">" ++ " " ++ pyStr v ++ ")")) ∧
    (pyLiteralEval (lastDotStr "5") = none →
      parse_queries ["a>5"] [("a", "col_a")] = Except.error PyErr.valueError) :=
  rhs_literal_after_dot_split [("a", "col_a")] "a>5" "a" ">" "5" "col_a"
    (by decide) (by decide) (by decide)

/-- Claim C4.  A selection expression whose left-hand identifier, after
stripping the qualifier before the last dot, is not a key of the variable
mapping makes parse_queries raise ConstraintExpressionError instead of
emitting a clause. -/
theorem unmapped_lhs_raises_constraint_error (mapping : List (String × String))
    (rest : List String) (e id1 op id2 : String)
    (hsplit : reSplitOp e = some (id1, op, id2))
    (hunmapped : lookupCol mapping (lastDotStr id1) = none) :
    parse_queries (e :: rest) mapping = Except.error PyErr.constraintExpressionError := by
  simp only [parse_queries, compileClauses, compileExpr, hsplit, hunmapped]

/-- Witness for unmapped_lhs_raises_constraint_error at the concrete
expression nosuch>1 against the mapping of the test suite. -/
theorem unmapped_lhs_raises_constraint_error_witness :
    parse_queries ["nosuch>1"] timeMapping = Except.error PyErr.constraintExpressionError :=
  unmapped_lhs_raises_constraint_error timeMapping [] "nosuch>1" "nosuch" ">" "1"
    (by decide) (by decide)

/-- The value of sys.maxint in the CPython 2 interpreter on a 64-bit
machine: a hardcoded machine-specific maximum integer. -/
def sysMaxint : Int := 2 ^ 63 - 1

/-- A Python slice object: each of start, stop and step is either None
or an integer.  DAP hyperslab indexes are nonnegative, but the type
keeps full integers to stay faithful to the Python object. -/
structure PySlice where
  start : Option Int
  stop : Option Int
  step : Option Int
deriving DecidableEq, Repr

/-- The default slice (slice(None),) set by the sequence constructor. -/
def defaultPySlice : PySlice := { start := none, stop := none, step := none }

/-- The Python expression x or d for x an optional integer: None and the
integer 0 are both falsy, so for either of them the default wins. -/
def pyOrInt (x : Option Int) (d : Int) : Int :=
  match x with
  | none => d
  | some v => if v = 0 then d else v

/-- The LIMIT computed by SQLSequenceType.query: the source expression
(self.slice[0].stop or sys.maxint) - (self.slice[0].start or 0). -/
def queryLimit (sl : PySlice) : Int :=
  pyOrInt sl.stop sysMaxint - pyOrInt sl.start 0

/-- The OFFSET computed by SQLSequenceType.query: the source expression
self.slice[0].start or 0. -/
def queryOffset (sl : PySlice) : Int :=
  pyOrInt sl.start 0

/-- The ORDER BY fragment: present only when an order column is
configured. -/
def orderClause (order : Option String) : String :=
  match order with
  | some c => "ORDER BY " ++ c
  | none => ""

/-- The SELECT statement assembled by SQLSequenceType.query from the
column list, table name, WHERE fragment, ORDER BY fragment and the
LIMIT/OFFSET derived from the slice, with the same single-space joints
as the source format string. -/
def sqlQuery (cols : List String) (table : String) (whereClause : String)
    (order : Option String) (sl : PySlice) : String :=
  "SELECT " ++ joinWith ", " cols ++ " FROM " ++ table ++ " " ++ whereClause
    ++ " " ++ orderClause order ++ " LIMIT " ++ toString (queryLimit sl)
    ++ " OFFSET " ++ toString (queryOffset sl)

/-- The full query of a sequence, combining the constraint compiler with
the query builder as the query property does. -/
def seqQuery (cols : List String) (table : String) (selection : List String)
    (mapping : List (String × String)) (order : Option String) (sl : PySlice) :
    Except PyErr String :=
  match parse_queries selection mapping with
  | Except.error err => Except.error err
  | Except.ok w => Except.ok (sqlQuery cols table w order sl)

/-- Subsampling a list as itertools.islice(data, 0, None, step) does: the
counter holds how many elements remain to be skipped before the next one
is emitted, so the elements at indices 0, step, 2*step, ... are kept. -/
def everyNthAux (step : Nat) : List α → Nat → List α
  | [], _ => []
  | x :: xs, 0 => x :: everyNthAux step xs (step - 1)
  | _ :: xs, c + 1 => everyNthAux step xs c

/-- The islice call of SQLSequenceType.__iter__: a step of None means 1,
a step below 1 makes islice raise ValueError, and otherwise every
step-th element starting at the first is kept. -/
def pyIslice (l : List α) (step : Option Int) : Except PyErr (List α) :=
  match step with
  | none => Except.ok (everyNthAux 1 l 0)
  | some k => if k < 1 then Except.error PyErr.valueError else
      Except.ok (everyNthAux k.toNat l 0)

/-- The row window the database returns for a LIMIT/OFFSET pair applied
to the ordered, unfiltered row stream of the table: skip offset rows and
return at most limit rows.  This models SQL semantics for the
nonnegative values arising here; negative LIMIT/OFFSET behaviour is
dialect-specific and outside the claims. -/
def dbWindow (table : List α) (limit offset : Int) : List α :=
  (table.drop offset.toNat).take limit.toNat

/-- The rows emitted by iterating a sequence with an empty selection:
the database trims the stream with the LIMIT/OFFSET computed from the
slice, and the step is applied client-side by islice, exactly as in
SQLSequenceType.__iter__. -/
def iterRows (table : List α) (sl : PySlice) : Except PyErr (List α) :=
  pyIslice (dbWindow table (queryLimit sl) (queryOffset sl)) sl.step

/-- Modelled from the spec: the start position of the claimed slice
window, 0 when absent. -/
def specStartVal (sl : PySlice) : Nat :=
  match sl.start with
  | none => 0
  | some a => a.toNat

/-- Modelled from the spec: the step of the claimed subsampling, 1 when
absent. -/
def specStepVal (sl : PySlice) : Nat :=
  match sl.step with
  | none => 1
  | some k => k.toNat

/-- Modelled from the spec: the candidate window of rows at positions
strictly within the interval from start to stop of the unfiltered
ordered row stream, with an absent stop meaning no upper bound. -/
def specWindow (table : List α) (sl : PySlice) : List α :=
  match sl.stop with
  | none => table.drop (specStartVal sl)
  | some s => (table.drop (specStartVal sl)).take (s.toNat - specStartVal sl)

/-- Modelled from the spec: the claimed emitted row sequence, namely the
rows at positions start, start+step, start+2*step, ... strictly within
the window from start to stop, i.e. the window trimmed first and then
subsampled by the step starting at its first row. -/
def specStepRows (table : List α) (sl : PySlice) : List α :=
  everyNthAux (specStepVal sl) (specWindow table sl) 0

/-- Claim C5, counterexample.  The claim states that an unbounded stop is
rendered as a dialect-appropriate no-limit sentinel and never as a
hardcoded machine-specific maximum integer.  For the default slice the
query property renders LIMIT sys.maxint, i.e. the 64-bit machine maximum
9223372036854775807, directly into the SQL text. -/
theorem unbounded_stop_renders_maxint :
    sqlQuery ["foo"] "mytable" "" none defaultPySlice
      = "SELECT foo FROM mytable   LIMIT 9223372036854775807 OFFSET 0" ∧
    containsRun "LIMIT 9223372036854775807".toList
      (sqlQuery ["foo"] "mytable" "" none defaultPySlice).toList = true ∧
    queryLimit defaultPySlice = sysMaxint ∧ sysMaxint = 2 ^ 63 - 1 := by
  decide

/-- Claim C5 as amended: OFFSET equals the slice start (0 when the start
is absent or zero), and LIMIT equals stop minus start when the stop is
finite and nonzero; when the stop is absent, or zero (Python or treats a
zero stop as absent), the rendered LIMIT is sys.maxint minus start, a
hardcoded machine maximum integer rather than a dialect sentinel. -/
theorem limit_offset_rendering (cols : List String) (table whereClause : String)
    (order : Option String) (sl : PySlice) :
    sqlQuery cols table whereClause order sl
      = "SELECT " ++ joinWith ", " cols ++ " FROM " ++ table ++ " " ++ whereClause
        ++ " " ++ orderClause order ++ " LIMIT "
        ++ toString (match sl.stop with
            | some s => if s = 0 then sysMaxint - queryOffset sl else s - queryOffset sl
            | none => sysMaxint - queryOffset sl)
        ++ " OFFSET " ++ toString (match sl.start with
            | none => (0 : Int)
            | some v => if v = 0 then 0 else v) := by
  have hoff : queryOffset sl = (match sl.start with
      | none => (0 : Int)
      | some v => if v = 0 then 0 else v) := by
    unfold queryOffset pyOrInt
    cases sl.start <;> rfl
  have hlim : queryLimit sl = (match sl.stop with
      | some s => if s = 0 then sysMaxint - queryOffset sl else s - queryOffset sl
      | none => sysMaxint - queryOffset sl) := by
    unfold queryLimit queryOffset pyOrInt
    cases sl.stop with
    | none => rfl
    | some s =>
      by_cases hs : s = 0 <;> simp [hs]
  rw [sqlQuery, hlim, hoff]

/-- Elements selected by the islice subsampler: the element at output
index k is the input element at index c + k * step, where c is the
current skip counter. -/
theorem everyNthAux_getElem (step : Nat) (h : 1 ≤ step) :
    ∀ (l : List α) (c k : Nat), (everyNthAux step l c)[k]? = l[c + k * step]? := by
  intro l
  induction l with
  | nil =>
    intro c k
    simp [everyNthAux]
  | cons x xs ih =>
    intro c k
    cases c with
    | zero =>
      cases k with
      | zero => simp [everyNthAux]
      | succ k =>
        have h1 : (everyNthAux step (x :: xs) 0)[k + 1]?
            = (everyNthAux step xs (step - 1))[k]? := by
          simp [everyNthAux]
        rw [h1, ih (step - 1) k]
        have h2 : 0 + (k + 1) * step = (step - 1 + k * step) + 1 := by
          rw [Nat.succ_mul]
          omega
        rw [h2]
        simp
    | succ c =>
      have h1 : (everyNthAux step (x :: xs) (c + 1))[k]?
          = (everyNthAux step xs c)[k]? := by
        simp [everyNthAux]
      rw [h1, ih c k]
      have h2 : c + 1 + k * step = (c + k * step) + 1 := by omega
      rw [h2]
      simp

/-- The database window produced by the computed LIMIT/OFFSET agrees
with the window the specification describes whenever the slice is
well-formed: nonnegative bounded start, stop either absent or positive
and at least the start, and a table that fits in a machine integer. -/
theorem dbWindow_eq_specWindow (table : List α) (sl : PySlice)
    (hstart : match sl.start with | none => True | some a => 0 ≤ a ∧ a ≤ sysMaxint)
    (hstop : match sl.stop with
      | none => table.length ≤ sysMaxint.toNat
      | some s => 0 < s ∧ specStartVal sl ≤ s.toNat) :
    dbWindow table (queryLimit sl) (queryOffset sl) = specWindow table sl := by
  have hMpos : (0 : Int) ≤ sysMaxint := by decide
  have ho1 : 0 ≤ queryOffset sl ∧ queryOffset sl ≤ sysMaxint ∧
      (queryOffset sl).toNat = specStartVal sl := by
    cases hs : sl.start with
    | none =>
      refine ⟨by simp [queryOffset, pyOrInt, hs], by simp [queryOffset, pyOrInt, hs, hMpos], ?_⟩
      simp [queryOffset, pyOrInt, hs, specStartVal]
    | some a =>
      rw [hs] at hstart
      obtain ⟨ha1, ha2⟩ := hstart
      by_cases ha : a = 0
      · refine ⟨by simp [queryOffset, pyOrInt, hs, ha], by simp [queryOffset, pyOrInt, hs, ha, hMpos], ?_⟩
        simp [queryOffset, pyOrInt, hs, ha, specStartVal]
      · refine ⟨by simp [queryOffset, pyOrInt, hs, ha]; omega, ?_, ?_⟩
        · simpa [queryOffset, pyOrInt, hs, ha] using ha2
        · simp [queryOffset, pyOrInt, hs, ha, specStartVal]
  obtain ⟨ho1, ho3, ho2⟩ := ho1
  cases hs : sl.stop with
  | none =>
    rw [hs] at hstop
    have hlen : table.length ≤ sysMaxint.toNat := hstop
    have hl : queryLimit sl = sysMaxint - queryOffset sl := by
      simp [queryLimit, queryOffset, pyOrInt, hs]
    unfold dbWindow specWindow
    rw [hs, hl, ho2]
    apply List.take_of_length_le
    rw [List.length_drop]
    omega
  | some s =>
    rw [hs] at hstop
    obtain ⟨hs1, hs2⟩ := hstop
    have hns : ¬ s = 0 := by omega
    have hl : queryLimit sl = s - queryOffset sl := by
      simp [queryLimit, queryOffset, pyOrInt, hs, hns]
    unfold dbWindow specWindow
    rw [hs, hl, ho2]
    have htn : (s - queryOffset sl).toNat = s.toNat - specStartVal sl := by omega
    rw [htn]

/-- Claim C6 as amended: for a well-formed slice (step at least 1 when
given, nonnegative bounded start, stop absent or positive and at least
the start — Python or treats a zero stop as absent, see the
counterexample) the iteration emits exactly the step-subsampled window,
and the element at output index k is the table row at position
start + k * step, present exactly when that position lies strictly below
the stop bound. -/
theorem step_subsampling_within_window (table : List α) (sl : PySlice)
    (hstep : match sl.step with | none => True | some k => 1 ≤ k)
    (hstart : match sl.start with | none => True | some a => 0 ≤ a ∧ a ≤ sysMaxint)
    (hstop : match sl.stop with
      | none => table.length ≤ sysMaxint.toNat
      | some s => 0 < s ∧ specStartVal sl ≤ s.toNat) :
    iterRows table sl = Except.ok (specStepRows table sl) ∧
    ∀ k : Nat, (specStepRows table sl)[k]?
      = match sl.stop with
        | none => table[specStartVal sl + k * specStepVal sl]?
        | some s => if specStartVal sl + k * specStepVal sl < s.toNat
            then table[specStartVal sl + k * specStepVal sl]? else none := by
  have hstepval : 1 ≤ specStepVal sl := by
    unfold specStepVal
    cases hk : sl.step with
    | none => exact Nat.le_refl 1
    | some k =>
      rw [hk] at hstep
      have hk1 : (1 : Int) ≤ k := hstep
      show 1 ≤ k.toNat
      omega
  constructor
  · unfold iterRows
    rw [dbWindow_eq_specWindow table sl hstart hstop]
    unfold pyIslice specStepRows specStepVal
    cases hk : sl.step with
    | none => rfl
    | some k =>
      rw [hk] at hstep
      have hk1 : (1 : Int) ≤ k := hstep
      have hnk : ¬ k < 1 := by omega
      simp [hnk]
  · intro k
    unfold specStepRows
    rw [everyNthAux_getElem (specStepVal sl) hstepval]
    unfold specWindow
    cases hs : sl.stop with
    | none =>
      show (table.drop (specStartVal sl))[0 + k * specStepVal sl]?
        = table[specStartVal sl + k * specStepVal sl]?
      rw [List.getElem?_drop, Nat.zero_add]
    | some s =>
      rw [hs] at hstop
      obtain ⟨hs1, hs2⟩ := hstop
      show ((table.drop (specStartVal sl)).take (s.toNat - specStartVal sl))[0 + k * specStepVal sl]?
        = if specStartVal sl + k * specStepVal sl < s.toNat
            then table[specStartVal sl + k * specStepVal sl]? else none
      rw [Nat.zero_add, List.getElem?_take]
      by_cases hc : specStartVal sl + k * specStepVal sl < s.toNat
      · rw [if_pos (show k * specStepVal sl < s.toNat - specStartVal sl by omega),
          if_pos hc, List.getElem?_drop]
      · rw [if_neg (show ¬ k * specStepVal sl < s.toNat - specStartVal sl by omega),
          if_neg hc]

/-- Witness for step_subsampling_within_window: the slice from row 1 to
row 5 with step 2 over a five-row table emits the rows at positions 1
and 3. -/
theorem step_subsampling_within_window_witness :
    iterRows ([10, 11, 12, 13, 14] : List Int)
        { start := some 1, stop := some 5, step := some 2 }
      = Except.ok (specStepRows ([10, 11, 12, 13, 14] : List Int)
        { start := some 1, stop := some 5, step := some 2 }) ∧
    specStepRows ([10, 11, 12, 13, 14] : List Int)
        { start := some 1, stop := some 5, step := some 2 } = [11, 13] :=
  ⟨(step_subsampling_within_window ([10, 11, 12, 13, 14] : List Int)
      { start := some 1, stop := some 5, step := some 2 }
      (by decide) (by decide) (by decide)).1,
   by decide⟩

/-- Claim C6, counterexample.  A slice with stop 0 and step 2 should,
per the claim, emit the rows at positions within the empty interval from
0 to 0 — none at all.  Python or treats the zero stop as falsy, the
LIMIT becomes sys.maxint, and the single-row table is emitted whole. -/
theorem zero_stop_treated_as_unbounded :
    iterRows ([7] : List Int) { start := none, stop := some 0, step := some 2 }
      = Except.ok [7] ∧
    specStepRows ([7] : List Int) { start := none, stop := some 0, step := some 2 }
      = [] := by
  decide

/-- Shorthand normalization in SQLHandler.parse: a projection entry with
a single component whose name is not the sequence name gets the sequence
component, carrying the empty raw slice, inserted in front.  The raw
slice type beta is abstract (slices as delivered by the host parser);
emptyRaw is the empty tuple attached to an unsliced component. -/
def fixShorthand (seqName : String) (emptyRaw : β) (var : List (String × β)) :
    List (String × β) :=
  if var.length = 1 ∧ (var.headD ("", emptyRaw)).1 ≠ seqName then
    (seqName, emptyRaw) :: var
  else var

/-- The slices SQLHandler.parse extracts, one per projection entry: the
raw slice of the first component of the normalized entry, pushed through
the external pydap.lib.fix_slice normalization (abstracted as the
function fixSlice into an arbitrary normalized-slice type). -/
def extractedSlices (fixSlice : β → σ) (seqName : String) (emptyRaw : β)
    (projection : List (List (String × β))) : List σ :=
  projection.map (fun var =>
    fixSlice ((fixShorthand seqName emptyRaw var).headD (seqName, emptyRaw)).2)

/-- The slice-consistency logic of SQLHandler.parse: with no projection
the default slice stands; otherwise the first extracted slice is
assigned and the request fails with ConstraintExpressionError when any
later extracted slice differs from it. -/
def sliceOfProjection [DecidableEq σ] (fixSlice : β → σ) (seqName : String)
    (emptyRaw : β) (defaultSlice : σ) (projection : List (List (String × β))) :
    Except PyErr σ :=
  if projection.isEmpty then Except.ok defaultSlice
  else
    let slices := extractedSlices fixSlice seqName emptyRaw projection
    let first := slices.headD defaultSlice
    if slices.tail.any (fun s => decide (s ≠ first)) then
      Except.error PyErr.constraintExpressionError
    else Except.ok first

/-- Claim C7.  When the slices extracted for the requested variables are
not all equal, SQLHandler.parse raises ConstraintExpressionError; when
they all agree the request proceeds with that common slice applied to
the sequence. -/
theorem slice_consistency_check [DecidableEq σ] (fixSlice : β → σ)
    (seqName : String) (emptyRaw : β) (defaultSlice : σ)
    (projection : List (List (String × β))) (hne : projection ≠ []) :
    ((∃ s ∈ extractedSlices fixSlice seqName emptyRaw projection,
        s ≠ (extractedSlices fixSlice seqName emptyRaw projection).headD defaultSlice) →
      sliceOfProjection fixSlice seqName emptyRaw defaultSlice projection
        = Except.error PyErr.constraintExpressionError) ∧
    ((∀ s ∈ extractedSlices fixSlice seqName emptyRaw projection,
        s = (extractedSlices fixSlice seqName emptyRaw projection).headD defaultSlice) →
      sliceOfProjection fixSlice seqName emptyRaw defaultSlice projection
        = Except.ok ((extractedSlices fixSlice seqName emptyRaw projection).headD
            defaultSlice)) := by
  obtain ⟨v, rest, hp⟩ : ∃ v rest, projection = v :: rest := by
    cases projection with
    | nil => exact absurd rfl hne
    | cons v rest => exact ⟨v, rest, rfl⟩
  subst hp
  have hemp : ¬ (v :: rest).isEmpty = true := by simp
  obtain ⟨h0, tl, hsl⟩ : ∃ h0 tl,
      extractedSlices fixSlice seqName emptyRaw (v :: rest) = h0 :: tl :=
    ⟨_, _, rfl⟩
  constructor
  · intro hdiff
    obtain ⟨s, hsmem, hsne⟩ := hdiff
    rw [hsl] at hsmem hsne
    unfold sliceOfProjection
    rw [if_neg hemp, hsl]
    have hmem2 : s ∈ tl := by
      cases hsmem with
      | head => exact absurd (by simp) hsne
      | tail _ h => exact h
    have : (h0 :: tl).tail.any (fun s => decide (s ≠ (h0 :: tl).headD defaultSlice))
        = true := by
      simp only [List.tail_cons, List.any_eq_true]
      exact ⟨s, hmem2, by simpa using hsne⟩
    rw [if_pos this]
  · intro hall
    rw [hsl] at hall
    unfold sliceOfProjection
    rw [if_neg hemp, hsl]
    have : ¬ (h0 :: tl).tail.any (fun s => decide (s ≠ (h0 :: tl).headD defaultSlice))
        = true := by
      simp only [List.tail_cons, List.any_eq_true, not_exists]
      intro s hs
      have h1 := hall s (List.mem_cons_of_mem _ hs.1)
      have h2 : s ≠ (h0 :: tl).headD defaultSlice := by simpa using hs.2
      exact h2 h1
    rw [if_neg this]

/-- Witness for slice_consistency_check: two entries that both name the
sequence component directly, carrying the differing raw slices 5 and 7
(normalized by the identity), make the check fail, and with equal slices
it succeeds. -/
theorem slice_consistency_check_witness :
    ((∃ s ∈ extractedSlices (fun b => b) "seq" 0 [[("seq", 5)], [("seq", 7)]],
        s ≠ (extractedSlices (fun b => b) "seq" 0
          [[("seq", 5)], [("seq", 7)]]).headD 99) →
      sliceOfProjection (fun b => b) "seq" (0 : Nat) (99 : Nat)
          [[("seq", 5)], [("seq", 7)]]
        = Except.error PyErr.constraintExpressionError) ∧
    ((∀ s ∈ extractedSlices (fun b => b) "seq" 0 [[("seq", 5)], [("seq", 7)]],
        s = (extractedSlices (fun b => b) "seq" 0
          [[("seq", 5)], [("seq", 7)]]).headD 99) →
      sliceOfProjection (fun b => b) "seq" (0 : Nat) (99 : Nat)
          [[("seq", 5)], [("seq", 7)]]
        = Except.ok ((extractedSlices (fun b => b) "seq" 0
            [[("seq", 5)], [("seq", 7)]]).headD 99)) :=
  slice_consistency_check (fun b => b) "seq" (0 : Nat) (99 : Nat)
    [[("seq", 5)], [("seq", 7)]] (by decide)

/-- The first row returned by the type-probe query
SELECT cols FROM table LIMIT 1 followed by fetchone(): None exactly when
the table holds no rows. -/
def probeFirstRow (table : List (List Int)) : Option (List Int) :=
  table.head?

/-- The dtype-peeking step of SQLHandler.__init__: the source builds the
dict of per-column dtypes by zipping the column names with the fetched
row.  When the table is empty fetchone() returns None, and in Python 2
zip(cols, None) raises TypeError, so opening the dataset fails.  Row
values stand in for their inferred numpy dtypes. -/
def peekDtypes (cols : List String) (table : List (List Int)) :
    Except PyErr (List (String × Int)) :=
  match probeFirstRow table with
  | none => Except.error PyErr.typeError
  | some row => Except.ok (cols.zip row)

/-- Claim C8.  The claim (and the repository test test_nodata.py) says
opening a dataset over an empty table succeeds, deferring type inference
to the first streamed value.  The dtype probe in SQLHandler.__init__
instead raises TypeError on the test_nodata configuration (one column
foo, zero rows), because fetchone() returns None and zip(cols, None) is
a TypeError, so the handler never reaches the deferred-dtype path of
SQLBaseType.dtype.  A one-row table is shown to succeed for contrast. -/
theorem empty_table_probe_type_error :
    peekDtypes ["foo"] [] = Except.error PyErr.typeError ∧
    peekDtypes ["foo"] [[42]] = Except.ok [("foo", 42)] := by
  decide

/-- The state of one SQLSequenceType object: its name, its configuration
(shared, immutable), the reference into the store of mutable selection
lists (modelling Python list identity), and its slice attribute. -/
structure SQLSeqState (γ : Type) where
  name : String
  config : γ
  selRef : Nat
  slice : PySlice

/-- Reading the selection list a reference points at. -/
def readSel (store : List (List String)) (r : Nat) : List String :=
  (store[r]?).getD []

/-- The sequence constructor: allocates a fresh empty selection list and
sets the slice attribute to the default full slice (slice(None),). -/
def initSeqState (store : List (List String)) (name : String) (cfg : γ) :
    List (List String) × SQLSeqState γ :=
  (store ++ [[]],
   { name := name, config := cfg, selRef := store.length, slice := defaultPySlice })

/-- SQLSequenceType.clone: builds a fresh object through the constructor
(passing the same config object), then rebinds its selection attribute
to a new list holding a copy of the original selection, as the source
line out.selection = self.selection[:] does.  The slice attribute is not
copied: it keeps the default value the constructor set.  Child cloning
is omitted; the claim concerns selection and slice state. -/
def cloneSeqState (store : List (List String)) (o : SQLSeqState γ) :
    List (List String) × SQLSeqState γ :=
  let p := initSeqState store o.name o.config
  (p.1 ++ [readSel store o.selRef], { p.2 with selRef := p.1.length })

/-- In-place extension of an object's selection list, modelling
seq.selection.extend(selection) in SQLHandler.parse. -/
def extendSelection (store : List (List String)) (o : SQLSeqState γ)
    (es : List String) : List (List String) :=
  store.set o.selRef (readSel store o.selRef ++ es)

/-- Rebinding an object's slice attribute, modelling
seq.slice = slices[0]. -/
def setSlice (o : SQLSeqState γ) (s : PySlice) : SQLSeqState γ :=
  { o with slice := s }

/-- Claim C9, counterexample.  The claim says the clone starts with the
same selection and slice as the original.  For an original whose slice
was set to rows 1 to 5, the clone built by SQLSequenceType.clone carries
the default full slice instead: clone() copies the selection but never
copies the slice attribute. -/
theorem clone_resets_slice :
    (cloneSeqState [["a>1"]]
      { name := "s", config := (0 : Nat), selRef := 0,
        slice := { start := some 1, stop := some 5, step := none } }).2.slice
      = defaultPySlice ∧
    (cloneSeqState [["a>1"]]
      { name := "s", config := (0 : Nat), selRef := 0,
        slice := { start := some 1, stop := some 5, step := none } }).2.slice
      ≠ { start := some 1, stop := some 5, step := none } := by
  decide

/-- Claim C9 as amended: clone() shares the config by reference, copies
the selection into a freshly allocated list with the same contents, and
resets the slice to the default full slice (it does not preserve the
original slice); the clone's selection list is a distinct object, so
extending the clone's selection or rebinding its slice leaves the
original's selection and slice unchanged. -/
theorem clone_selection_independence (γ : Type) (store : List (List String))
    (o : SQLSeqState γ) (es : List String) (s : PySlice)
    (h : o.selRef < store.length) :
    (cloneSeqState store o).2.config = o.config ∧
    (cloneSeqState store o).2.name = o.name ∧
    readSel (cloneSeqState store o).1 (cloneSeqState store o).2.selRef
      = readSel store o.selRef ∧
    (cloneSeqState store o).2.slice = defaultPySlice ∧
    (cloneSeqState store o).2.selRef ≠ o.selRef ∧
    readSel (extendSelection (cloneSeqState store o).1 (cloneSeqState store o).2 es)
        o.selRef
      = readSel store o.selRef ∧
    (setSlice (cloneSeqState store o).2 s).slice = s := by
  have hlen : ((store ++ [[]]) : List (List String)).length = store.length + 1 := by
    simp
  have href : (cloneSeqState store o).2.selRef = store.length + 1 := by
    simp [cloneSeqState, initSeqState]
  have hst : (cloneSeqState store o).1
      = (store ++ [([] : List String)]) ++ [readSel store o.selRef] := rfl
  have hargext : readSel (cloneSeqState store o).1 (cloneSeqState store o).2.selRef
      = readSel store o.selRef := by
    rw [hst, href, readSel, ← hlen, List.getElem?_concat_length]
    rfl
  refine ⟨rfl, rfl, hargext, rfl, by omega, ?_, rfl⟩
  unfold extendSelection
  rw [readSel, List.getElem?_set_ne (by omega), hst,
    List.getElem?_append_left (by simp; omega),
    List.getElem?_append_left (by omega)]
  rfl

/-- Witness for clone_selection_independence at a concrete original with
one pending selection expression. -/
theorem clone_selection_independence_witness :
    (cloneSeqState [["a>1"]]
        { name := "s", config := (0 : Nat), selRef := 0, slice := defaultPySlice }).2.config
      = (0 : Nat) ∧
    (cloneSeqState [["a>1"]]
        { name := "s", config := (0 : Nat), selRef := 0, slice := defaultPySlice }).2.name
      = "s" ∧
    readSel (cloneSeqState [["a>1"]]
        { name := "s", config := (0 : Nat), selRef := 0, slice := defaultPySlice }).1
      (cloneSeqState [["a>1"]]
        { name := "s", config := (0 : Nat), selRef := 0, slice := defaultPySlice }).2.selRef
      = readSel [["a>1"]] 0 ∧
    (cloneSeqState [["a>1"]]
        { name := "s", config := (0 : Nat), selRef := 0, slice := defaultPySlice }).2.slice
      = defaultPySlice ∧
    (cloneSeqState [["a>1"]]
        { name := "s", config := (0 : Nat), selRef := 0, slice := defaultPySlice }).2.selRef
      ≠ 0 ∧
    readSel (extendSelection
        (cloneSeqState [["a>1"]]
          { name := "s", config := (0 : Nat), selRef := 0, slice := defaultPySlice }).1
        (cloneSeqState [["a>1"]]
          { name := "s", config := (0 : Nat), selRef := 0, slice := defaultPySlice }).2
        ["b<2"]) 0
      = readSel [["a>1"]] 0 ∧
    (setSlice (cloneSeqState [["a>1"]]
        { name := "s", config := (0 : Nat), selRef := 0, slice := defaultPySlice }).2
      { start := some 2, stop := none, step := none }).slice
      = { start := some 2, stop := none, step := none } := by
  have h0 : (0 : Nat) < ([["a>1"]] : List (List String)).length := by decide
  exact clone_selection_independence Nat [["a>1"]]
    { name := "s", config := (0 : Nat), selRef := 0, slice := defaultPySlice }
    ["b<2"] { start := some 2, stop := none, step := none } h0

/-- Observable connection events of one iteration of
SQLSequenceType.__iter__: acquiring the pooled connection, yielding one
row to the consumer, and releasing the connection with conn.close(). -/
inductive ConnEvent where
  | acquire
  | yieldRow (r : Int)
  | release
deriving DecidableEq, Repr

/-- The event trace of one started iteration of the generator body of
SQLSequenceType.__iter__ in which the consumer pulls consumed rows and
then stops: the body acquires a connection, yields the step-filtered
rows one by one, and reaches the conn.close() line only if the for loop
runs to completion, i.e. only when the consumer drives the generator
past the last row.  There is no try/finally around the loop, so a
consumer that abandons the iteration early, or an exception propagating
out of a yield, leaves the close line unexecuted. -/
def iterTrace (table : List Int) (sl : PySlice) (consumed : Nat) : List ConnEvent :=
  match iterRows table sl with
  | Except.error _ => [ConnEvent.acquire]
  | Except.ok rows =>
    ConnEvent.acquire :: ((rows.take consumed).map ConnEvent.yieldRow
      ++ (if rows.length ≤ consumed then [ConnEvent.release] else []))

/-- Claim C10, counterexample.  The claim says the connection is released
on every exit path from the iteration.  A consumer that pulls one row of
a three-row table and abandons the iteration produces a trace with no
release event at all: conn.close() sits after the loop with no
try/finally, so it runs only on normal exhaustion. -/
theorem early_abandon_never_releases :
    ConnEvent.release ∉ iterTrace [1, 2, 3] defaultPySlice 1 ∧
    ConnEvent.release ∈ iterTrace [1, 2, 3] defaultPySlice 3 := by
  decide

/-- Claim C10 as amended: the connection acquired at the start of the
iteration is released exactly on normal exhaustion — when the consumer
drives the loop past the last row the trace ends with the release event,
and when the iteration is abandoned early (or an exception aborts it
mid-fetch) no release event occurs in the trace at all. -/
theorem release_only_on_exhaustion (table : List Int) (sl : PySlice)
    (consumed : Nat) (rows : List Int)
    (h : iterRows table sl = Except.ok rows) :
    (rows.length ≤ consumed →
      iterTrace table sl consumed
        = ConnEvent.acquire :: (rows.map ConnEvent.yieldRow ++ [ConnEvent.release])) ∧
    (consumed < rows.length → ConnEvent.release ∉ iterTrace table sl consumed) := by
  simp only [iterTrace, h]
  constructor
  · intro hc
    rw [if_pos hc, List.take_of_length_le hc]
  · intro hc
    rw [if_neg (by omega)]
    intro hmem
    simp only [List.append_nil, List.mem_cons] at hmem
    cases hmem with
    | inl h1 => exact ConnEvent.noConfusion h1
    | inr h2 =>
      obtain ⟨r, _, hr⟩ := List.mem_map.mp h2
      exact ConnEvent.noConfusion hr

/-- Witness for release_only_on_exhaustion: a two-row table under the
default slice, with the consumer either exhausting the rows or stopping
after one. -/
theorem release_only_on_exhaustion_witness :
    (([1, 2] : List Int).length ≤ 2 →
      iterTrace [1, 2] defaultPySlice 2
        = ConnEvent.acquire :: (([1, 2] : List Int).map ConnEvent.yieldRow
            ++ [ConnEvent.release])) ∧
    (2 < ([1, 2] : List Int).length →
      ConnEvent.release ∉ iterTrace [1, 2] defaultPySlice 2) :=
  release_only_on_exhaustion [1, 2] defaultPySlice 2 [1, 2] (by decide)

end PydapSql
